import Mathlib

/-!
# Sugar-AI Activity: verification of the request/retry core

Shallow embedding of the Sugar-AI activity (`src/activity.py`):

* the retry orchestrator `_make_api_request` (background thread with
  `max_retries = 3`, `retry_delays = [60, 120, 180]`, `GLib.idle_add`
  marshaling, and a `finally` clause re-enabling input),
* the submission handler `_on_ask_clicked` and its precondition checks,
* the transcript serialization of `write_file` / `read_file`.

Python strings that the parser of `write_file` manipulates are modelled as
`List Char`; machine-independent values (JSON, HTTP statuses) are modelled
structurally.  The behaviour of the external `requests` library at each
attempt (HTTP status, parsed JSON body or a `.json()` failure, raised
exceptions) is an environment parameter, one outcome per attempt index, and
the values of the RAG toggle and of `self._api_key` visible to the
background thread at each attempt are likewise environment parameters.
-/

namespace SugarAI

/-! ## JSON values (the result of `response.json()`) -/

/-- A parsed JSON value, as returned by `response.json()` in Python. -/
inductive Json where
  | null
  | bool (b : Bool)
  | num (n : Int)
  | str (s : String)
  | arr (xs : List Json)
  | obj (kvs : List (String × Json))

/-- Python truthiness of a parsed JSON value (`if quota:`). -/
def Json.truthy : Json → Bool
  | .null => false
  | .bool b => b
  | .num n => n != 0
  | .str s => !s.isEmpty
  | .arr xs => !xs.isEmpty
  | .obj kvs => !kvs.isEmpty

/-- `dict.get(k)` on a parsed JSON object: first binding of the key. -/
def jGet (kvs : List (String × Json)) (k : String) : Option Json :=
  (kvs.find? (fun kv => kv.1 == k)).map (fun kv => kv.2)

mutual
/-- Python `repr()` of a parsed JSON value (used by `str()` on containers). -/
def Json.pyRepr : Json → String
  | .null => "None"
  | .bool b => cond b "True" "False"
  | .num n => toString n
  | .str s => "\x27" ++ s ++ "\x27"
  | .arr xs => "[" ++ pyReprItems xs ++ "]"
  | .obj kvs => "\x7b" ++ pyReprFields kvs ++ "\x7d"

/-- Comma-separated `repr` of list items. -/
def pyReprItems : List Json → String
  | [] => ""
  | [x] => x.pyRepr
  | x :: xs => x.pyRepr ++ ", " ++ pyReprItems xs

/-- Comma-separated `repr` of dict fields. -/
def pyReprFields : List (String × Json) → String
  | [] => ""
  | [(k, v)] => "\x27" ++ k ++ "\x27: " ++ v.pyRepr
  | (k, v) :: xs => "\x27" ++ k ++ "\x27: " ++ v.pyRepr ++ ", " ++ pyReprFields xs
end

/-- Python `str()` of a parsed JSON value, as an f-string renders it. -/
def Json.pyStr : Json → String
  | .str s => s
  | j => j.pyRepr

/-- `str(e)` for the `AttributeError` raised by `x.get(...)` when `x` is not
a dict (e.g. `quota.get("remaining", ...)` with a non-dict `quota`). -/
def attrErrMsg (j : Json) : String :=
  let tyName := match j with
    | .null => "NoneType"
    | .bool _ => "bool"
    | .num _ => "int"
    | .str _ => "str"
    | .arr _ => "list"
    | .obj _ => "dict"
  "\x27" ++ tyName ++ "\x27 object has no attribute \x27get\x27"

/-! ## Percent-encoding: `urllib.parse.quote` with its default `safe="/"` -/

/-- UTF-8 encoding of one character, bytes as `Nat`. -/
def utf8Bytes (c : Char) : List Nat :=
  let n := c.toNat
  if n < 0x80 then [n]
  else if n < 0x800 then [0xC0 + n / 64, 0x80 + n % 64]
  else if n < 0x10000 then
    [0xE0 + n / 4096, 0x80 + (n / 64) % 64, 0x80 + n % 64]
  else
    [0xF0 + n / 262144, 0x80 + (n / 4096) % 64, 0x80 + (n / 64) % 64,
     0x80 + n % 64]

/-- Bytes `urllib.parse.quote` leaves unescaped: ASCII letters, digits,
`_.-~` (always safe) and `/` (the default `safe` argument). -/
def isQuoteSafe (n : Nat) : Bool :=
  (65 ≤ n && n ≤ 90) || (97 ≤ n && n ≤ 122) || (48 ≤ n && n ≤ 57) ||
  n == 95 || n == 46 || n == 45 || n == 126 || n == 47

/-- Upper-case hex digit of a value `< 16`. -/
def hexDigit (n : Nat) : String :=
  String.singleton (if n < 10 then Char.ofNat (48 + n) else Char.ofNat (55 + n))

/-- One byte of `urllib.parse.quote` output. -/
def quoteByte (n : Nat) : String :=
  if isQuoteSafe n then String.singleton (Char.ofNat n)
  else "%" ++ hexDigit (n / 16) ++ hexDigit (n % 16)

/-- `urllib.parse.quote(s)`: percent-encode the UTF-8 bytes of `s`,
keeping safe bytes verbatim. -/
def pyQuote (s : String) : String :=
  String.join ((s.data.map (fun c => (utf8Bytes c).map quoteByte)).flatten)

/-! ## Notifications and events of the background orchestration -/

/-- A UI mutation requested by the orchestration: the callback passed to
`GLib.idle_add` together with its argument.  `aiMsg` carries the Python
value passed to `_add_ai_message` (the extracted `answer`). -/
inductive Notif where
  | systemMsg (s : String)
  | aiMsg (v : Json)
  | errorMsg (s : String)
  | setInput (sensitive : Bool)

/-- One observable action of the orchestration, in program order.
`idle n` is `GLib.idle_add(callback, arg)` (marshaled to the UI thread);
`direct n` would be the same UI call made directly on the background
thread — the embedding proves it never occurs. -/
inductive Event where
  | idle (n : Notif)
  | direct (n : Notif)
  | sleep (seconds : Nat)
  | httpPost (url : String) (params : List (String × String))
      (headers : List (String × String)) (timeoutSeconds : Nat)

/-- The result of one `requests.post` call, as the `try` block observes it:
an HTTP response, or one of the exception classes the code catches. -/
inductive AttemptOutcome where
  | response (status : Nat) (jsonBody : Except String Json) (text : String)
  | timeout
  | connectionError
  | exn (detail : String)

/-- The environment of one orchestration: what `requests.post` does at each
attempt index, and the values of the live RAG toggle and of
`self._api_key` that the background thread reads at each attempt. -/
structure Env where
  rag : Nat → Bool
  apiKey : Nat → String
  outcome : Nat → AttemptOutcome

/-- `max_retries = 3`. -/
def maxRetries : Nat := 3

/-- `retry_delays = [60, 120, 180]`. -/
def retryDelays : List Nat := [60, 120, 180]

/-- `self._api_base_url`. -/
def apiBaseUrl : String := "https://ai.sugarlabs.org"

/-- The events at the head of loop iteration `attempt` (`if attempt > 0:`
announce, `time.sleep(retry_delays[attempt - 1])`, announce retry). -/
def attemptPrelude (attempt : Nat) : List Event :=
  if attempt > 0 then
    [.idle (.systemMsg ("Attempt " ++ toString (attempt + 1) ++ "/" ++
        toString maxRetries ++ " - retrying in " ++
        toString (retryDelays.getD (attempt - 1) 0) ++ " seconds...")),
     .sleep (retryDelays.getD (attempt - 1) 0),
     .idle (.systemMsg "Retrying request to Sugar-AI...")]
  else []

/-- The `requests.post` call of one attempt: endpoint chosen from the RAG
toggle as read at this attempt, `params = {"question": quote(question)}`,
`headers = {"X-API-Key": self._api_key}`, `timeout=300`. -/
def postEv (env : Env) (question : String) (attempt : Nat) : Event :=
  .httpPost (apiBaseUrl ++ (if env.rag attempt then "/ask" else "/ask-llm"))
    [("question", pyQuote question)]
    [("X-API-Key", env.apiKey attempt)] 300

/-- The notifications of the body of loop iteration `attempt` after the
`requests.post` call, and whether the loop continues to the next iteration
(`continue`) or stops (`return`), mirroring the branch structure of
`_make_api_request`. -/
def attemptRest (o : AttemptOutcome) (attempt : Nat) : List Event × Bool :=
  match o with
  | .response status jsonBody text =>
    if status = 200 then
      match jsonBody with
      | .error d =>
        -- `response.json()` raised; caught by `except Exception`
        ([.idle (.errorMsg ("Unexpected error: " ++ d))], false)
      | .ok (.obj kvs) =>
        let answer := (jGet kvs "answer").getD (.str "No answer received.")
        let quota := (jGet kvs "quota").getD (.obj [])
        if quota.truthy then
          match quota with
          | .obj qkvs =>
            let remaining := (jGet qkvs "remaining").getD (.str "Unknown")
            let total := (jGet qkvs "total").getD (.str "Unknown")
            ([.idle (.systemMsg ("Quota: " ++ remaining.pyStr ++ "/" ++
                  total.pyStr)),
              .idle (.aiMsg answer)], false)
          | _ =>
            -- truthy non-dict quota: `quota.get` raises AttributeError
            ([.idle (.errorMsg ("Unexpected error: " ++
                attrErrMsg quota))], false)
        else ([.idle (.aiMsg answer)], false)
      | .ok v =>
        -- non-dict JSON body: `result.get` raises AttributeError
        ([.idle (.errorMsg ("Unexpected error: " ++ attrErrMsg v))], false)
    else if status = 401 then
      ([.idle (.errorMsg
          "Invalid API key. Please check your configuration.")], false)
    else if status = 429 then
      ([.idle (.errorMsg
          "Rate limit exceeded. Please try again later.")], false)
    else if status = 504 then
      if attempt = maxRetries - 1 then
        ([.idle (.errorMsg ("Server timeout (504) after " ++
            toString maxRetries ++
            " attempts. The Sugar-AI service is experiencing high load. Please try again later."))],
         true)
      else
        ([.idle (.systemMsg ("Server timeout (504) on attempt " ++
            toString (attempt + 1) ++ ". Will retry..."))], true)
    else if status = 503 then
      ([.idle (.errorMsg
          "Service unavailable (503). The Sugar-AI service may be down for maintenance. Please try again later.")],
       false)
    else
      ([.idle (.errorMsg ("API error " ++ toString status ++ ": " ++
          text))], false)
  | .timeout =>
    if attempt = maxRetries - 1 then
      ([.idle (.errorMsg ("Request timed out after 5 minutes on " ++
          toString maxRetries ++
          " attempts. The Sugar-AI service may be experiencing high load. Please try again later."))],
       true)
    else
      ([.idle (.systemMsg ("Request timed out on attempt " ++
          toString (attempt + 1) ++ ". Will retry..."))], true)
  | .connectionError =>
    ([.idle (.errorMsg
        "Connection error. Please check your internet connection.")], false)
  | .exn d =>
    ([.idle (.errorMsg ("Unexpected error: " ++ d))], false)

/-- The events of the body of loop iteration `attempt` after its prelude:
the `requests.post` call, then the branch-dependent notifications; paired
with the continue/stop flag. -/
def attemptBody (env : Env) (question : String) (attempt : Nat) :
    List Event × Bool :=
  (postEv env question attempt :: (attemptRest (env.outcome attempt) attempt).1,
   (attemptRest (env.outcome attempt) attempt).2)

/-- The `for attempt in range(max_retries)` loop; `fuel` is the number of
iterations `range` still has, so the loop entered at `attempt` runs with
`fuel = maxRetries - attempt`. -/
def loopAux (env : Env) (question : String) : Nat → Nat → List Event
  | 0, _ => []
  | fuel + 1, attempt =>
    attemptPrelude attempt ++ (attemptBody env question attempt).1 ++
      (if (attemptBody env question attempt).2 then
        loopAux env question fuel (attempt + 1)
      else [])

/-- `_make_api_request(question)`: the retry loop under `try`, then the
`finally` clause `GLib.idle_add(self._set_input_sensitive, True)`. -/
def makeApiRequest (env : Env) (question : String) : List Event :=
  loopAux env question maxRetries 0 ++ [.idle (.setInput true)]

/-! ## Python string stripping (`str.strip()`), on `List Char` -/

/-- The characters `str.strip()` removes: exactly those for which CPython's
`str.isspace()` is true — the ASCII whitespace and separator controls
`U+0009`–`U+000D`, `U+001C`–`U+001F`, `U+0020`, plus `U+0085`, `U+00A0`,
`U+1680`, `U+2000`–`U+200A`, `U+2028`, `U+2029`, `U+202F`, `U+205F` and
`U+3000`. -/
def isPySpace (c : Char) : Bool :=
  let n := c.toNat
  (0x09 ≤ n && n ≤ 0x0D) || (0x1C ≤ n && n ≤ 0x1F) || n == 0x20 ||
  n == 0x85 || n == 0xA0 || n == 0x1680 ||
  (0x2000 ≤ n && n ≤ 0x200A) || n == 0x2028 || n == 0x2029 ||
  n == 0x202F || n == 0x205F || n == 0x3000

/-- `str.strip()` on a character list. -/
def pyStrip (xs : List Char) : List Char :=
  ((xs.dropWhile isPySpace).reverse.dropWhile isPySpace).reverse

/-- `str.strip()` on a `String`. -/
def pyStripStr (s : String) : String := ⟨pyStrip s.data⟩

/-! ## The submission handler `_on_ask_clicked` -/

/-- The activity state read and written by `_on_ask_clicked`. -/
structure UiState where
  entryText : String
  apiKey : String
  isRequesting : Bool
deriving DecidableEq

/-- The side effects `_on_ask_clicked` can perform, in order. -/
inductive AskEffect where
  | showAlert (msg : String)
  | clearEntry
  | addUserMsg (s : String)
  | addSystemMsg (s : String)
  | disableInput
  | spawnRequest (question : String)
deriving DecidableEq

/-- `_on_ask_clicked`: the synchronous precondition checks, then (only when
all pass) clear the entry, echo the question, announce thinking, disable
input (which sets `_is_requesting = True`) and start the background
thread. -/
def onAskClicked (s : UiState) : UiState × List AskEffect :=
  let question := pyStripStr s.entryText
  if question = "" then (s, [])
  else if s.apiKey = "" then
    (s, [.showAlert "Please configure your API key first."])
  else if s.isRequesting then (s, [])
  else
    ({ s with entryText := "", isRequesting := true },
     [.clearEntry, .addUserMsg question,
      .addSystemMsg
        "Sugar-AI is thinking... This may take 2-5 minutes, please be patient.",
      .disableInput, .spawnRequest question])

/-- Whether an effect starts the background thread. -/
def AskEffect.isSpawn : AskEffect → Bool
  | .spawnRequest _ => true
  | _ => false

/-- The in-flight abstraction: `(isRequesting, number of live background
orchestrations)`.  A click transitions through `onAskClicked` with whatever
entry text and key the UI holds at that moment; a finish is the `finally`
clause's `_set_input_sensitive(True)` of a live orchestration (so it
requires one to exist), which sets `_is_requesting = False`. -/
def clickStep (text key : String) (s : Bool × Nat) : Bool × Nat :=
  let r := onAskClicked ⟨text, key, s.1⟩
  (r.1.isRequesting, s.2 + (if r.2.any AskEffect.isSpawn then 1 else 0))

/-- One interleaving step of the activity: a click or an orchestration
finishing. -/
inductive AskStep : Bool × Nat → Bool × Nat → Prop where
  | click (text key : String) (s : Bool × Nat) : AskStep s (clickStep text key s)
  | finish (b : Bool) (n : Nat) (h : 0 < n) : AskStep (b, n) (false, n - 1)

/-- States reachable from the initial one (`_is_requesting = False`, no
background thread). -/
inductive ReachableAsk : Bool × Nat → Prop where
  | init : ReachableAsk (false, 0)
  | step {s s'} : ReachableAsk s → AskStep s s' → ReachableAsk s'

/-! ## The transcript: rendering and the `write_file` parser

Messages are `List Char` (Python strings).  `_add_user_message` inserts
`"You: " + m + "\n\n"`, `_add_ai_message` inserts `"Sugar-AI: " + m + "\n\n"`;
`read_file` replays the stored entries through exactly these two calls.
`write_file` reads the buffer text back, splits it on `"\n"` and parses it
line by line into `{"type": ..., "message": ...}` entries. -/

/-- The `"type"` tag of a persisted conversation entry. -/
inductive EType where
  | user
  | ai
deriving DecidableEq

/-- A persisted conversation entry: type tag and message text. -/
abbrev Entry := EType × List Char

/-- `"You: "`. -/
def youPre : List Char := ['Y', 'o', 'u', ':', ' ']

/-- `"Sugar-AI: "`. -/
def aiPre : List Char := ['S', 'u', 'g', 'a', 'r', '-', 'A', 'I', ':', ' ']

/-- What one entry contributes to the chat buffer. -/
def renderEntry : Entry → List Char
  | (.user, m) => youPre ++ m ++ ['\n', '\n']
  | (.ai, m) => aiPre ++ m ++ ['\n', '\n']

/-- The chat buffer text produced by replaying a stored conversation. -/
def renderTranscript : List Entry → List Char
  | [] => []
  | e :: es => renderEntry e ++ renderTranscript es

/-- `text.split("\n")`: keeps empty pieces, yields `[""]` on `""`. -/
def splitNl : List Char → List (List Char)
  | [] => [[]]
  | c :: rest =>
    if c = '\n' then [] :: splitNl rest
    else
      match splitNl rest with
      | l :: ls => (c :: l) :: ls
      | [] => [[c]]

/-- `if current_message and current_type:` append the pending entry. -/
def flushPending (cur : List Char) (ty : Option EType) : List Entry :=
  match ty with
  | some t => if cur = [] then [] else [(t, pyStrip cur)]
  | none => []

/-- The line loop of `write_file`: `for line in lines` with the pending
`current_message` / `current_type` accumulator, then a final flush. -/
def parseLoop : List (List Char) → List Char → Option EType → List Entry →
    List Entry
  | [], cur, ty, acc => acc ++ flushPending cur ty
  | line :: rest, cur, ty, acc =>
    if youPre.isPrefixOf line then
      parseLoop rest (line.drop 5) (some .user) (acc ++ flushPending cur ty)
    else if aiPre.isPrefixOf line then
      parseLoop rest (line.drop 10) (some .ai) (acc ++ flushPending cur ty)
    else if cur ≠ [] then
      parseLoop rest (cur ++ '\n' :: line) ty acc
    else
      parseLoop rest cur ty acc

/-- `write_file`'s conversation extraction from the buffer text. -/
def parseConversation (text : List Char) : List Entry :=
  parseLoop (splitNl text) [] none []

/-! ## Helpers for stating the claims -/

/-- Whether an event is a `requests.post` call. -/
def Event.isHttpPost : Event → Bool
  | .httpPost .. => true
  | _ => false

/-- The `requests.post` events of a trace, in order. -/
def postsOf (tr : List Event) : List Event := tr.filter Event.isHttpPost

/-- The `time.sleep` durations of a trace, in order. -/
def sleepsOf (tr : List Event) : List Nat :=
  tr.filterMap (fun e => match e with | .sleep n => some n | _ => none)

/-- The error-notification texts of a trace, in order. -/
def errorsOf (tr : List Event) : List String :=
  tr.filterMap (fun e =>
    match e with | .idle (.errorMsg s) => some s | _ => none)

/-- The number of answer notifications (`_add_ai_message`) in a trace. -/
def answerCount (tr : List Event) : Nat :=
  tr.countP (fun e => match e with | .idle (.aiMsg _) => true | _ => false)

/-- Transient outcomes: HTTP 504 or a client-side `requests` timeout. -/
def isTransient : AttemptOutcome → Prop
  | .response status _ _ => status = 504
  | .timeout => True
  | .connectionError => False
  | .exn _ => False

/-- Terminal outcomes in the sense of the spec: any HTTP status other than
200 and 504, a connection error, or an unexpected exception. -/
def isTerminal : AttemptOutcome → Prop
  | .response status _ _ => status ≠ 200 ∧ status ≠ 504
  | .timeout => False
  | .connectionError => True
  | .exn _ => True

/-- The single error notification a terminal outcome produces. -/
def terminalMsg : AttemptOutcome → String
  | .response status _ text =>
    if status = 401 then "Invalid API key. Please check your configuration."
    else if status = 429 then "Rate limit exceeded. Please try again later."
    else if status = 503 then
      "Service unavailable (503). The Sugar-AI service may be down for maintenance. Please try again later."
    else "API error " ++ toString status ++ ": " ++ text
  | .timeout => ""
  | .connectionError => "Connection error. Please check your internet connection."
  | .exn d => "Unexpected error: " ++ d

/-- The "will retry" notification of a transient outcome at a non-final
attempt. -/
def willRetryMsg (o : AttemptOutcome) (attempt : Nat) : String :=
  match o with
  | .timeout =>
    "Request timed out on attempt " ++ toString (attempt + 1) ++
      ". Will retry..."
  | _ =>
    "Server timeout (504) on attempt " ++ toString (attempt + 1) ++
      ". Will retry..."

/-- The final error notification after the retry budget is exhausted. -/
def exhaustMsg (o : AttemptOutcome) : String :=
  match o with
  | .timeout =>
    "Request timed out after 5 minutes on " ++ toString maxRetries ++
      " attempts. The Sugar-AI service may be experiencing high load. Please try again later."
  | _ =>
    "Server timeout (504) after " ++ toString maxRetries ++
      " attempts. The Sugar-AI service is experiencing high load. Please try again later."

/-- Whether the loop body ends in `continue` for this outcome (it does,
for HTTP 504 and for a client timeout, at final and non-final attempts
alike — at the final attempt the `for` range is then exhausted). -/
def attemptCont : AttemptOutcome → Bool
  | .response status _ _ => status == 504
  | .timeout => true
  | _ => false

/-- How many attempts run when the loop has `fuel` iterations left,
starting at attempt `a`. -/
def attemptsCount (env : Env) : Nat → Nat → Nat
  | 0, _ => 0
  | fuel + 1, a =>
    1 + (if attemptCont (env.outcome a) then attemptsCount env fuel (a + 1)
         else 0)

/-- The number of attempts an orchestration performs in environment `env`. -/
def numAttempts (env : Env) : Nat := attemptsCount env maxRetries 0

/-- The full trace of the first `j` attempts when each is transient and
retried: attempt events, the "will retry" notification, then the prelude
(wait announcement, sleep, retry announcement) of the next attempt. -/
def transientPre (env : Env) (question : String) : Nat → List Event
  | 0 => []
  | j + 1 =>
    transientPre env question j ++
      [postEv env question j,
       .idle (.systemMsg (willRetryMsg (env.outcome j) j))] ++
      attemptPrelude (j + 1)

/-- Events `attemptRest` may emit: marshaled system, error or answer
notifications only. -/
def benignNotif : Event → Bool
  | .idle (.systemMsg _) => true
  | .idle (.errorMsg _) => true
  | .idle (.aiMsg _) => true
  | _ => false

/-- The input re-enabling notification (`_set_input_sensitive(True)`
posted with `GLib.idle_add` from the `finally` clause). -/
def isReenable : Event → Bool
  | .idle (.setInput true) => true
  | _ => false

/-- `j.get(k, d)` for a parsed JSON value known to be a dict (used to state
the success branch; the code itself raises on non-dicts). -/
def Json.getField (j : Json) (k : String) (d : Json) : Json :=
  match j with
  | .obj kvs => (jGet kvs k).getD d
  | _ => d

/-- The quota/answer notifications of a successful 200 response whose body
is the JSON object `kvs` (quota either absent/falsy, or a dict). -/
def successTail (kvs : List (String × Json)) : List Event :=
  let answer := (jGet kvs "answer").getD (.str "No answer received.")
  let quota := (jGet kvs "quota").getD (.obj [])
  (if quota.truthy then
    [Event.idle (.systemMsg ("Quota: " ++
        (quota.getField "remaining" (.str "Unknown")).pyStr ++ "/" ++
        (quota.getField "total" (.str "Unknown")).pyStr))]
   else []) ++ [Event.idle (.aiMsg answer)]

/-! ## Well-formedness of persisted messages (for the round-trip claim) -/

/-- Neither rendering prefix starts this line. -/
def noPre (l : List Char) : Bool :=
  !(youPre.isPrefixOf l) && !(aiPre.isPrefixOf l)

/-- A message that survives the buffer round trip verbatim: non-empty,
no leading or trailing Python whitespace, and no line of it starting with
`"You: "` or `"Sugar-AI: "`. -/
def wfMsg (m : List Char) : Bool :=
  !m.isEmpty && !isPySpace (m.headD ' ') && !isPySpace (m.getLastD ' ') &&
    (splitNl m).all noPre

/-- Rejoin split lines with `'\n'` (inverse of `splitNl`). -/
def joinNl : List (List Char) → List Char
  | [] => []
  | [l] => l
  | l :: ls => l ++ '\n' :: joinNl ls

/-- `'\n'`-prepended concatenation of the lines after the first. -/
def nlCat : List (List Char) → List Char
  | [] => []
  | l :: ls => '\n' :: (l ++ nlCat ls)

/-- The parser state on entering an entry chunk: nothing pending yet, or
the previous well-formed message plus the separator newline. -/
def pendingInv (cur : List Char) (ty : Option EType) : Prop :=
  (cur = [] ∧ ty = none) ∨
    ∃ m t, wfMsg m = true ∧ ty = some t ∧ cur = m ++ ['\n']

/-! ## Concrete environments used as witnesses and counterexamples -/

/-- Every attempt times out client-side (spec scenario D). -/
def envTimeouts : Env where
  rag := fun _ => true
  apiKey := fun _ => "k"
  outcome := fun _ => .timeout

/-- The first attempt hits a connection error. -/
def envConn : Env where
  rag := fun _ => true
  apiKey := fun _ => "k"
  outcome := fun _ => .connectionError

/-- Spec scenario A: first attempt returns HTTP 200 with an answer and a
quota object `{"remaining": 9, "total": 10}`. -/
def envQuota : Env where
  rag := fun _ => true
  apiKey := fun _ => "k"
  outcome := fun _ =>
    .response 200
      (.ok (.obj [("answer", .str "A loop repeats code."),
                  ("quota", .obj [("remaining", .num 9),
                                  ("total", .num 10)])])) ""

/-- First attempt returns HTTP 200 whose body fails to parse as JSON. -/
def envBadJson : Env where
  rag := fun _ => true
  apiKey := fun _ => "k"
  outcome := fun _ => .response 200 (.error "Expecting value") "not json"

/-- The RAG toggle is flipped off during the first retry wait: attempt 0
sees it on, attempt 1 sees it off; attempt 0 gets HTTP 504, attempt 1
succeeds. -/
def envRagFlip : Env where
  rag := fun i => i == 0
  apiKey := fun _ => "k"
  outcome := fun i =>
    if i == 0 then .response 504 (.error "e") "gateway"
    else .response 200 (.ok (.obj [("answer", .str "ok")])) ""

/-- An alternating two-entry conversation whose first message is empty. -/
def exEntries : List Entry := [(.user, []), (.ai, ['h', 'i'])]

/-- The URL of a `requests.post` event. -/
def eventUrl : Event → String
  | .httpPost url _ _ _ => url
  | _ => ""

/-! ## Shape lemmas about one attempt -/

lemma attemptRest_benign (o : AttemptOutcome) (a : Nat) :
    ∀ e ∈ (attemptRest o a).1, benignNotif e = true := by
  intro e he
  rcases o with ⟨status, jsonBody, text⟩ | _ | _ | d
  · rcases jsonBody with d | v
    · simp only [attemptRest] at he
      split_ifs at he <;> simp at he <;> subst he <;> rfl
    · rcases v with _ | b | n | s | xs | kvs <;>
        simp only [attemptRest] at he <;>
        split_ifs at he
      all_goals
        first
          | (simp at he; subst he; rfl)
          | (rcases hq : (jGet kvs "quota").getD (Json.obj []) with
              _ | b | n | s | xs | qkvs <;>
              rw [hq] at he <;> simp at he <;>
              first
                | (subst he; rfl)
                | (rcases he with he | he <;> subst he <;> rfl))
  · simp only [attemptRest] at he
    split_ifs at he <;> simp at he <;> subst he <;> rfl
  · simp only [attemptRest] at he
    simp at he; subst he; rfl
  · simp only [attemptRest] at he
    simp at he; subst he; rfl

lemma attemptRest_cont (o : AttemptOutcome) (a : Nat) :
    (attemptRest o a).2 = attemptCont o := by
  rcases o with ⟨status, jsonBody, text⟩ | _ | _ | d
  · rcases jsonBody with d | v
    · simp only [attemptRest, attemptCont]
      split_ifs <;> simp_all
    · rcases v with _ | b | n | s | xs | kvs
      case obj =>
        simp only [attemptRest, attemptCont]
        split_ifs <;>
          first
            | ((try simp_all) <;> omega)
            | (rcases hq : (jGet kvs "quota").getD (Json.obj []) with
                _ | b | n | s | xs | qkvs <;> simp_all)
      all_goals
        simp only [attemptRest, attemptCont]
        split_ifs <;> simp_all
  · simp only [attemptRest, attemptCont]
    split_ifs <;> rfl
  · rfl
  · rfl

/-- A benign event is one of the three marshaled message notifications. -/
lemma benign_cases {e : Event} (h : benignNotif e = true) :
    (∃ s, e = .idle (.systemMsg s)) ∨ (∃ s, e = .idle (.errorMsg s)) ∨
      (∃ v, e = .idle (.aiMsg v)) := by
  cases e with
  | idle n =>
    cases n with
    | systemMsg s => exact Or.inl ⟨s, rfl⟩
    | aiMsg v => exact Or.inr (Or.inr ⟨v, rfl⟩)
    | errorMsg s => exact Or.inr (Or.inl ⟨s, rfl⟩)
    | setInput b => simp [benignNotif] at h
  | direct n => simp [benignNotif] at h
  | sleep k => simp [benignNotif] at h
  | httpPost u p hs t => simp [benignNotif] at h

lemma benign_not_post {e : Event} (h : benignNotif e = true) :
    e.isHttpPost = false := by
  rcases benign_cases h with ⟨s, rfl⟩ | ⟨s, rfl⟩ | ⟨v, rfl⟩ <;> rfl

lemma benign_not_reenable {e : Event} (h : benignNotif e = true) :
    isReenable e = false := by
  rcases benign_cases h with ⟨s, rfl⟩ | ⟨s, rfl⟩ | ⟨v, rfl⟩ <;> rfl

lemma benign_not_sleep {e : Event} (h : benignNotif e = true) :
    ∀ k, e ≠ .sleep k := by
  rcases benign_cases h with ⟨s, rfl⟩ | ⟨s, rfl⟩ | ⟨v, rfl⟩ <;>
    intro k hk <;> cases hk

lemma postsOf_benign {l : List Event} (h : ∀ e ∈ l, benignNotif e = true) :
    postsOf l = [] := by
  simp only [postsOf, List.filter_eq_nil_iff]
  intro e he
  simp [benign_not_post (h e he)]

lemma sleepsOf_benign {l : List Event} (h : ∀ e ∈ l, benignNotif e = true) :
    sleepsOf l = [] := by
  simp only [sleepsOf, List.filterMap_eq_nil_iff]
  intro e he
  rcases benign_cases (h e he) with ⟨s, rfl⟩ | ⟨s, rfl⟩ | ⟨v, rfl⟩ <;> rfl

/-! ## Shape lemmas about the attempt prelude -/

lemma attemptPrelude_zero : attemptPrelude 0 = [] := rfl

lemma attemptPrelude_shape (a : Nat) :
    ∀ e ∈ attemptPrelude a,
      (∃ s, e = .idle (.systemMsg s)) ∨ (∃ k, e = .sleep k) := by
  intro e he
  simp only [attemptPrelude] at he
  split_ifs at he
  · simp at he
    rcases he with he | he | he <;> subst he
    · exact Or.inl ⟨_, rfl⟩
    · exact Or.inr ⟨_, rfl⟩
    · exact Or.inl ⟨_, rfl⟩
  · simp at he

lemma postsOf_prelude (a : Nat) : postsOf (attemptPrelude a) = [] := by
  simp only [postsOf, List.filter_eq_nil_iff]
  intro e he
  rcases attemptPrelude_shape a e he with ⟨s, rfl⟩ | ⟨k, rfl⟩ <;> simp [Event.isHttpPost]

lemma sleepsOf_prelude_succ (a : Nat) :
    sleepsOf (attemptPrelude (a + 1)) = [retryDelays.getD a 0] := by
  simp [attemptPrelude, sleepsOf]

lemma reenable_prelude (a : Nat) :
    ∀ e ∈ attemptPrelude a, isReenable e = false := by
  intro e he
  rcases attemptPrelude_shape a e he with ⟨s, rfl⟩ | ⟨k, rfl⟩ <;> rfl

/-! ## Shape lemmas about the whole loop -/

lemma loopAux_shape (env : Env) (q : String) :
    ∀ (f a : Nat) (e : Event), e ∈ loopAux env q f a →
      (∃ s, e = .idle (.systemMsg s)) ∨ (∃ s, e = .idle (.errorMsg s)) ∨
        (∃ v, e = .idle (.aiMsg v)) ∨ (∃ k, e = .sleep k) ∨
        (∃ i, a ≤ i ∧ e = postEv env q i) := by
  intro f
  induction f with
  | zero => intro a e he; simp [loopAux] at he
  | succ f ih =>
    intro a e he
    simp only [loopAux, attemptBody, List.mem_append] at he
    rcases he with (hp | hb) | hr
    · rcases attemptPrelude_shape a e hp with ⟨s, rfl⟩ | ⟨k, rfl⟩
      · exact Or.inl ⟨s, rfl⟩
      · exact Or.inr (Or.inr (Or.inr (Or.inl ⟨k, rfl⟩)))
    · rcases List.mem_cons.mp hb with rfl | hb
      · exact Or.inr (Or.inr (Or.inr (Or.inr ⟨a, le_refl a, rfl⟩)))
      · rcases benign_cases (attemptRest_benign _ a e hb) with
          ⟨s, rfl⟩ | ⟨s, rfl⟩ | ⟨v, rfl⟩
        · exact Or.inl ⟨s, rfl⟩
        · exact Or.inr (Or.inl ⟨s, rfl⟩)
        · exact Or.inr (Or.inr (Or.inl ⟨v, rfl⟩))
    · split at hr
      · rcases ih (a + 1) e hr with h | h | h | h | ⟨i, hi, rfl⟩
        · exact Or.inl h
        · exact Or.inr (Or.inl h)
        · exact Or.inr (Or.inr (Or.inl h))
        · exact Or.inr (Or.inr (Or.inr (Or.inl h)))
        · exact Or.inr (Or.inr (Or.inr (Or.inr ⟨i, by omega, rfl⟩)))
      · simp at hr

/-! ## Transient attempts and loop decomposition -/

lemma attemptRest_transient_nonlast (o : AttemptOutcome) (a : Nat)
    (ha : a < 2) (h : isTransient o) :
    attemptRest o a = ([.idle (.systemMsg (willRetryMsg o a))], true) := by
  rcases o with ⟨status, jsonBody, text⟩ | _ | _ | d
  · have h504 : status = 504 := h
    subst h504
    simp [attemptRest, willRetryMsg, maxRetries]
    omega
  · simp [attemptRest, willRetryMsg, maxRetries]
    omega
  · exact absurd h (by simp [isTransient])
  · exact absurd h (by simp [isTransient])

lemma attemptRest_transient_last (o : AttemptOutcome) (h : isTransient o) :
    attemptRest o 2 = ([.idle (.errorMsg (exhaustMsg o))], true) := by
  rcases o with ⟨status, jsonBody, text⟩ | _ | _ | d
  · have h504 : status = 504 := h
    subst h504
    simp [attemptRest, exhaustMsg, maxRetries]
  · simp [attemptRest, exhaustMsg, maxRetries]
  · exact absurd h (by simp [isTransient])
  · exact absurd h (by simp [isTransient])

lemma loop_decomp (env : Env) (q : String) (j : Nat) (hj : j < 3)
    (ht : ∀ i, i < j → isTransient (env.outcome i)) :
    loopAux env q 3 0 = transientPre env q j ++ (attemptBody env q j).1 ++
      (if (attemptRest (env.outcome j) j).2 then
        loopAux env q (2 - j) (j + 1) else []) := by
  interval_cases j
  · simp [loopAux, transientPre, attemptBody, attemptPrelude_zero]
  · have r0 := attemptRest_transient_nonlast (env.outcome 0) 0 (by omega)
      (ht 0 (by omega))
    simp [loopAux, transientPre, attemptBody, attemptPrelude_zero, r0]
  · have r0 := attemptRest_transient_nonlast (env.outcome 0) 0 (by omega)
      (ht 0 (by omega))
    have r1 := attemptRest_transient_nonlast (env.outcome 1) 1 (by omega)
      (ht 1 (by omega))
    simp [loopAux, transientPre, attemptBody, attemptPrelude_zero, r0, r1]


/-! ## Claims C2, C3, C7, C10 -/

lemma attemptRest_terminal (o : AttemptOutcome) (a : Nat) (h : isTerminal o) :
    attemptRest o a = ([.idle (.errorMsg (terminalMsg o))], false) := by
  rcases o with ⟨status, jsonBody, text⟩ | _ | _ | d
  · obtain ⟨h200, h504⟩ := h
    simp only [attemptRest, terminalMsg]
    split_ifs <;> simp_all
  · exact h.elim
  · rfl
  · rfl

lemma loopAux_noReenable (env : Env) (q : String) :
    ∀ e ∈ loopAux env q 3 0, isReenable e = false := by
  intro e he
  rcases loopAux_shape env q 3 0 e he with
    ⟨s, rfl⟩ | ⟨s, rfl⟩ | ⟨v, rfl⟩ | ⟨k, rfl⟩ | ⟨i, hi, rfl⟩ <;> rfl

/-- Claim C3: whatever branch an orchestration takes, the input re-enabled
notification (`_set_input_sensitive(True)` posted from the `finally`
clause) is emitted exactly once, and it is the last event of the
orchestration. -/
theorem reenable_once_and_last (env : Env) (q : String) :
    (makeApiRequest env q).countP isReenable = 1 ∧
    (makeApiRequest env q).getLast? = some (.idle (.setInput true)) := by
  constructor
  · rw [makeApiRequest, List.countP_append,
      List.countP_eq_zero.mpr (fun e he => by
        simp [loopAux_noReenable env q e he])]
    rfl
  · rw [makeApiRequest, List.getLast?_concat]

/-- Claim C10: every event of the orchestration trace is either a UI
notification marshaled through `GLib.idle_add`, a `time.sleep`, or the
blocking `requests.post` call; in particular no UI mutation is ever
performed directly (the `Event.direct` constructor never occurs), and the
blocking operations are plain background-thread events, never marshaled
onto the UI queue. -/
theorem marshaled_or_blocking (env : Env) (q : String) :
    ∀ e ∈ makeApiRequest env q,
      (∃ n, e = .idle n) ∨ (∃ k, e = .sleep k) ∨
        (∃ u ps hs t, e = .httpPost u ps hs t) := by
  intro e he
  rw [makeApiRequest] at he
  rcases List.mem_append.mp he with hl | hl
  · rcases loopAux_shape env q 3 0 e hl with
      ⟨s, rfl⟩ | ⟨s, rfl⟩ | ⟨v, rfl⟩ | ⟨k, rfl⟩ | ⟨i, hi, rfl⟩
    · exact Or.inl ⟨_, rfl⟩
    · exact Or.inl ⟨_, rfl⟩
    · exact Or.inl ⟨_, rfl⟩
    · exact Or.inr (Or.inl ⟨k, rfl⟩)
    · exact Or.inr (Or.inr ⟨_, _, _, _, rfl⟩)
  · simp at hl
    subst hl
    exact Or.inl ⟨_, rfl⟩

/-- Claim C7: every `requests.post` event of every orchestration posts to
`{baseURL}/ask` when the RAG toggle (as read for that attempt) is on and
`{baseURL}/ask-llm` otherwise, carries the question as the single query
parameter named `question` whose value is `urllib.parse.quote` applied
exactly once to the question text, and carries the credential in the
`X-API-Key` header, with a 300-second timeout. -/
theorem wire_protocol (env : Env) (q : String) (url : String)
    (ps hs : List (String × String)) (t : Nat)
    (h : Event.httpPost url ps hs t ∈ makeApiRequest env q) :
    ∃ i, url = apiBaseUrl ++ (if env.rag i then "/ask" else "/ask-llm") ∧
      ps = [("question", pyQuote q)] ∧ hs = [("X-API-Key", env.apiKey i)] ∧
      t = 300 := by
  rw [makeApiRequest] at h
  rcases List.mem_append.mp h with hl | hl
  · rcases loopAux_shape env q 3 0 _ hl with
      ⟨s, he⟩ | ⟨s, he⟩ | ⟨v, he⟩ | ⟨k, he⟩ | ⟨i, hi, he⟩
    · cases he
    · cases he
    · cases he
    · cases he
    · rw [postEv] at he
      injection he with h1 h2 h3 h4
      exact ⟨i, h1, h2, h3, h4⟩
  · simp at hl

/-- Claim C2: an orchestration whose first attempt yields a terminal
outcome (HTTP status other than 200 and 504, a connection error, or an
unexpected exception) performs exactly one attempt and emits exactly one
error notification describing the specific cause, with no sleep and no
retry: its whole trace is the single request, the error notification, and
the re-enable notification. -/
theorem terminal_single_attempt (env : Env) (q : String)
    (h : isTerminal (env.outcome 0)) :
    makeApiRequest env q =
      [postEv env q 0, .idle (.errorMsg (terminalMsg (env.outcome 0))),
       .idle (.setInput true)] := by
  have r0 := attemptRest_terminal (env.outcome 0) 0 h
  simp [makeApiRequest, loopAux, attemptBody, attemptPrelude_zero, r0]


/-! ## Trace characterizations: posts and sleeps -/

lemma attemptPrelude_one :
    attemptPrelude 1 =
      [.idle (.systemMsg "Attempt 2/3 - retrying in 60 seconds..."),
       .sleep 60, .idle (.systemMsg "Retrying request to Sugar-AI...")] := rfl

lemma attemptPrelude_two :
    attemptPrelude 2 =
      [.idle (.systemMsg "Attempt 3/3 - retrying in 120 seconds..."),
       .sleep 120, .idle (.systemMsg "Retrying request to Sugar-AI...")] := rfl

lemma sleepsOf_append (l₁ l₂ : List Event) :
    sleepsOf (l₁ ++ l₂) = sleepsOf l₁ ++ sleepsOf l₂ :=
  List.filterMap_append l₁ l₂ _

lemma sleepsOf_nil : sleepsOf [] = [] := rfl

lemma sleepsOf_cons_idle (n : Notif) (l : List Event) :
    sleepsOf (.idle n :: l) = sleepsOf l := rfl

lemma sleepsOf_cons_sleep (k : Nat) (l : List Event) :
    sleepsOf (.sleep k :: l) = k :: sleepsOf l := rfl

lemma sleepsOf_cons_postEv (env : Env) (q : String) (i : Nat) (l : List Event) :
    sleepsOf (postEv env q i :: l) = sleepsOf l := rfl

lemma sleepsOf_rest (o : AttemptOutcome) (a : Nat) :
    sleepsOf (attemptRest o a).1 = [] :=
  sleepsOf_benign (attemptRest_benign o a)

lemma postsOf_append (l₁ l₂ : List Event) :
    postsOf (l₁ ++ l₂) = postsOf l₁ ++ postsOf l₂ :=
  List.filter_append l₁ l₂

lemma postsOf_nil : postsOf [] = [] := rfl

lemma postsOf_cons_idle (n : Notif) (l : List Event) :
    postsOf (.idle n :: l) = postsOf l := rfl

lemma postsOf_cons_sleep (k : Nat) (l : List Event) :
    postsOf (.sleep k :: l) = postsOf l := rfl

lemma postsOf_cons_postEv (env : Env) (q : String) (i : Nat) (l : List Event) :
    postsOf (postEv env q i :: l) = postEv env q i :: postsOf l := rfl

lemma postsOf_rest (o : AttemptOutcome) (a : Nat) :
    postsOf (attemptRest o a).1 = [] :=
  postsOf_benign (attemptRest_benign o a)

lemma postsOf_makeApiRequest (env : Env) (q : String) :
    postsOf (makeApiRequest env q) =
      (List.range' 0 (numAttempts env) 1).map (postEv env q) := by
  rcases hc0 : attemptCont (env.outcome 0) <;>
    rcases hc1 : attemptCont (env.outcome 1) <;>
    simp only [makeApiRequest, loopAux, attemptBody, attemptRest_cont, hc0,
      hc1, numAttempts, attemptsCount, maxRetries, attemptPrelude_zero,
      attemptPrelude_one, attemptPrelude_two, if_true, if_false,
      Bool.false_eq_true, ite_self, List.nil_append, List.cons_append,
      List.append_assoc, List.append_nil, postsOf_append, postsOf_nil,
      postsOf_cons_idle, postsOf_cons_sleep, postsOf_cons_postEv,
      postsOf_rest, List.range'] <;>
    rfl

lemma sleepsOf_makeApiRequest (env : Env) (q : String) :
    sleepsOf (makeApiRequest env q) =
      retryDelays.take (numAttempts env - 1) := by
  rcases hc0 : attemptCont (env.outcome 0) <;>
    rcases hc1 : attemptCont (env.outcome 1) <;>
    simp only [makeApiRequest, loopAux, attemptBody, attemptRest_cont, hc0,
      hc1, numAttempts, attemptsCount, maxRetries, attemptPrelude_zero,
      attemptPrelude_one, attemptPrelude_two, if_true, if_false,
      Bool.false_eq_true, ite_self, List.nil_append, List.cons_append,
      List.append_assoc, List.append_nil, sleepsOf_append, sleepsOf_nil,
      sleepsOf_cons_idle, sleepsOf_cons_sleep, sleepsOf_cons_postEv,
      sleepsOf_rest, retryDelays] <;>
    rfl


/-! ## Claim C1 -/

lemma loopAux_zero (env : Env) (q : String) (a : Nat) :
    loopAux env q 0 a = [] := rfl

lemma numAttempts_le (env : Env) : numAttempts env ≤ 3 := by
  rcases hc0 : attemptCont (env.outcome 0) <;>
    rcases hc1 : attemptCont (env.outcome 1) <;>
    simp [numAttempts, attemptsCount, maxRetries, hc0, hc1]

lemma makeApiRequest_head (env : Env) (q : String) :
    ∃ rest, makeApiRequest env q = postEv env q 0 :: rest := by
  refine ⟨(attemptRest (env.outcome 0) 0).1 ++
    ((if (attemptRest (env.outcome 0) 0).2 = true then loopAux env q 2 1
      else []) ++ [Event.idle (.setInput true)]), ?_⟩
  simp [makeApiRequest, loopAux, attemptBody, attemptPrelude_zero, maxRetries]

/-- Claim C1: the orchestrator performs at most 3 total attempts (the
number of posts equals the attempt count, which never exceeds 3), never
sleeps before attempt 0 (the very first event is the attempt-0 request),
sleeps exactly 60 seconds between attempts 0 and 1 and exactly 120 seconds
between attempts 1 and 2 (the sleep list is the matching prefix of
`retry_delays`), and when all 3 attempts yield transient outcomes
(HTTP 504 or a client timeout) the trace is exactly three attempts with the
60- and 120-second waits in between and a final error notification naming
the attempt count 3, followed by the re-enable notification. -/
theorem retry_budget_and_backoff (env : Env) (q : String) :
    (postsOf (makeApiRequest env q)).length = numAttempts env ∧
    numAttempts env ≤ 3 ∧
    (∃ rest, makeApiRequest env q = postEv env q 0 :: rest) ∧
    sleepsOf (makeApiRequest env q) = retryDelays.take (numAttempts env - 1) ∧
    ((∀ i, i < 3 → isTransient (env.outcome i)) →
      makeApiRequest env q =
        [postEv env q 0,
         .idle (.systemMsg (willRetryMsg (env.outcome 0) 0)),
         .idle (.systemMsg "Attempt 2/3 - retrying in 60 seconds..."),
         .sleep 60,
         .idle (.systemMsg "Retrying request to Sugar-AI..."),
         postEv env q 1,
         .idle (.systemMsg (willRetryMsg (env.outcome 1) 1)),
         .idle (.systemMsg "Attempt 3/3 - retrying in 120 seconds..."),
         .sleep 120,
         .idle (.systemMsg "Retrying request to Sugar-AI..."),
         postEv env q 2,
         .idle (.errorMsg (exhaustMsg (env.outcome 2))),
         .idle (.setInput true)]) := by
  refine ⟨?_, numAttempts_le env, makeApiRequest_head env q,
    sleepsOf_makeApiRequest env q, ?_⟩
  · rw [postsOf_makeApiRequest, List.length_map, List.length_range']
  · intro ht
    have hd := loop_decomp env q 2 (by omega) (fun i hi => ht i (by omega))
    have r0 := attemptRest_transient_nonlast (env.outcome 0) 0 (by omega)
      (ht 0 (by omega))
    have r1 := attemptRest_transient_nonlast (env.outcome 1) 1 (by omega)
      (ht 1 (by omega))
    have r2 := attemptRest_transient_last (env.outcome 2) (ht 2 (by omega))
    simp only [makeApiRequest, maxRetries]
    rw [hd]
    simp [transientPre, attemptBody, r0, r1, r2, attemptPrelude_one,
      attemptPrelude_two, loopAux_zero]


/-! ## Claims C5, C4, C9 -/


/-- Claim C5 (amended): the question is fixed for the whole orchestration,
but the mode and the credential are re-read from the live RAG toggle and
from `self._api_key` at the start of every attempt: the i-th request of
the trace is built from the toggle and key values visible at attempt i. -/
theorem per_attempt_mode_and_key (env : Env) (q : String) :
    postsOf (makeApiRequest env q) =
      (List.range' 0 (numAttempts env) 1).map (postEv env q) :=
  postsOf_makeApiRequest env q

/-- Claim C5 counterexample: flipping the RAG toggle during the first
retry wait makes attempt 0 and attempt 1 of the same orchestration post to
different endpoints, contradicting the claim that the endpoint is chosen
once at submission time and fixed for the whole attempt sequence. -/
theorem mode_fixed_counterexample :
    ¬ (∀ e₁ ∈ postsOf (makeApiRequest envRagFlip "hello"),
        ∀ e₂ ∈ postsOf (makeApiRequest envRagFlip "hello"),
          eventUrl e₁ = eventUrl e₂) := by
  intro h
  have hp : postsOf (makeApiRequest envRagFlip "hello") =
      [postEv envRagFlip "hello" 0, postEv envRagFlip "hello" 1] := rfl
  have h1 := h (postEv envRagFlip "hello" 0) (by rw [hp]; simp)
    (postEv envRagFlip "hello" 1) (by rw [hp]; simp)
  exact absurd h1 (by decide)



lemma transientPre_shape (env : Env) (q : String) :
    ∀ j, ∀ e ∈ transientPre env q j,
      (∃ s, e = .idle (.systemMsg s)) ∨ (∃ k, e = .sleep k) ∨
        (∃ i, e = postEv env q i) := by
  intro j
  induction j with
  | zero => intro e he; simp [transientPre] at he
  | succ j ih =>
    intro e he
    simp only [transientPre, List.append_assoc, List.mem_append] at he
    rcases he with he | he | he
    · exact ih e he
    · rcases List.mem_cons.mp he with rfl | he
      · exact Or.inr (Or.inr ⟨j, rfl⟩)
      · rcases List.mem_cons.mp he with rfl | he
        · exact Or.inl ⟨_, rfl⟩
        · simp at he
    · rcases attemptPrelude_shape (j + 1) e he with ⟨s, rfl⟩ | ⟨k, rfl⟩
      · exact Or.inl ⟨_, rfl⟩
      · exact Or.inr (Or.inl ⟨k, rfl⟩)

lemma answerCount_transientPre (env : Env) (q : String) (j : Nat) :
    answerCount (transientPre env q j) = 0 := by
  rw [answerCount, List.countP_eq_zero]
  intro e he
  rcases transientPre_shape env q j e he with ⟨s, rfl⟩ | ⟨k, rfl⟩ | ⟨i, rfl⟩ <;>
    simp [postEv]

lemma errorsOf_transientPre (env : Env) (q : String) (j : Nat) :
    errorsOf (transientPre env q j) = [] := by
  rw [errorsOf, List.filterMap_eq_nil_iff]
  intro e he
  rcases transientPre_shape env q j e he with ⟨s, rfl⟩ | ⟨k, rfl⟩ | ⟨i, rfl⟩ <;> rfl

lemma postsOf_transientPre_length (env : Env) (q : String) :
    ∀ j, (postsOf (transientPre env q j)).length = j := by
  intro j
  induction j with
  | zero => rfl
  | succ j ih =>
    simp only [transientPre, postsOf_append, postsOf_cons_postEv,
      postsOf_cons_idle, postsOf_nil, postsOf_prelude, List.length_append,
      List.length_cons, List.length_nil, ih]

lemma attemptRest_success (kvs : List (String × Json)) (text : String)
    (a : Nat)
    (hq : ((jGet kvs "quota").getD (.obj [])).truthy = true →
      ∃ qkvs, (jGet kvs "quota").getD (.obj []) = .obj qkvs) :
    attemptRest (.response 200 (.ok (.obj kvs)) text) a =
      (successTail kvs, false) := by
  by_cases htr : ((jGet kvs "quota").getD (Json.obj [])).truthy = true
  · obtain ⟨qkvs, hqe⟩ := hq htr
    simp only [attemptRest, successTail, hqe, if_true]
    rw [hqe] at htr
    simp [htr, Json.getField]
  · simp only [attemptRest, successTail]
    simp [htr]

lemma attemptRest_badJson (d text : String) (a : Nat) :
    attemptRest (.response 200 (.error d) text) a =
      ([.idle (.errorMsg ("Unexpected error: " ++ d))], false) := rfl

lemma answerCount_successTail (kvs : List (String × Json)) :
    answerCount (successTail kvs) = 1 := by
  by_cases htr : ((jGet kvs "quota").getD (Json.obj [])).truthy = true
  · rcases hq : (jGet kvs "quota").getD (Json.obj []) with _ | b | n | s | xs | qkvs <;>
      simp [successTail, hq, answerCount, List.countP_cons, htr]
  · simp [successTail, htr, answerCount, List.countP_cons]

lemma errorsOf_successTail (kvs : List (String × Json)) :
    errorsOf (successTail kvs) = [] := by
  by_cases htr : ((jGet kvs "quota").getD (Json.obj [])).truthy = true <;>
    simp [successTail, htr, errorsOf]

lemma postsOf_successTail (kvs : List (String × Json)) :
    postsOf (successTail kvs) = [] := by
  by_cases htr : ((jGet kvs "quota").getD (Json.obj [])).truthy = true <;>
    simp [successTail, htr, postsOf, Event.isHttpPost]



/-- Claim C4 (amended): for every orchestration whose attempts before `j`
are transient and whose attempt `j` returns HTTP 200 with a body that
parses as a JSON object (and whose `quota` field, when truthy, is an
object), the orchestrator extracts the answer (default message when the
field is absent), emits a quota notification exactly when a truthy quota
value is present and emits it before the answer notification, emits
exactly one answer notification and no error notification, and terminates
with no further attempts. -/
theorem success_branch (env : Env) (q : String) (j : Nat)
    (kvs : List (String × Json)) (text : String)
    (hj : j < 3) (ht : ∀ i, i < j → isTransient (env.outcome i))
    (ho : env.outcome j = .response 200 (.ok (.obj kvs)) text)
    (hq : ((jGet kvs "quota").getD (.obj [])).truthy = true →
      ∃ qkvs, (jGet kvs "quota").getD (.obj []) = .obj qkvs) :
    makeApiRequest env q =
      transientPre env q j ++ postEv env q j ::
        (successTail kvs ++ [.idle (.setInput true)]) ∧
    answerCount (makeApiRequest env q) = 1 ∧
    errorsOf (makeApiRequest env q) = [] ∧
    (postsOf (makeApiRequest env q)).length = j + 1 := by
  have hd := loop_decomp env q j hj ht
  have hr := attemptRest_success kvs text j hq
  have htr : makeApiRequest env q =
      transientPre env q j ++ postEv env q j ::
        (successTail kvs ++ [.idle (.setInput true)]) := by
    simp only [makeApiRequest, maxRetries]
    rw [hd]
    simp [attemptBody, ho, hr]
  refine ⟨htr, ?_, ?_, ?_⟩
  · rw [htr, answerCount, List.countP_append]
    rw [← answerCount, answerCount_transientPre]
    simp only [List.countP_cons, List.countP_append]
    rw [show (List.countP _ (successTail kvs)) = 1 from answerCount_successTail kvs]
    simp [postEv]
  · rw [htr, errorsOf, List.filterMap_append]
    rw [← errorsOf, errorsOf_transientPre]
    simp only [List.filterMap_cons, List.filterMap_append]
    rw [show (List.filterMap _ (successTail kvs)) = [] from errorsOf_successTail kvs]
    simp [postEv]
  · rw [htr, postsOf_append, postsOf_cons_postEv, postsOf_append,
      postsOf_successTail, postsOf_cons_idle, postsOf_nil]
    simp [postsOf_transientPre_length]

/-- Claim C4 counterexample: an attempt that returns HTTP 200 with a body
that is not valid JSON emits no answer notification at all (the claim as
stated promises exactly one answer notification for every HTTP-200
attempt); the orchestration instead emits a single unexpected-error
notification. -/
theorem success_branch_counterexample :
    envBadJson.outcome 0 = .response 200 (.error "Expecting value") "not json" ∧
    answerCount (makeApiRequest envBadJson "q") = 0 ∧
    errorsOf (makeApiRequest envBadJson "q") =
      ["Unexpected error: Expecting value"] := ⟨rfl, rfl, rfl⟩

/-- Claim C9: when an attempt returns HTTP 200 but `response.json()`
raises (the body is not valid JSON), the orchestration emits exactly one
error notification — the unexpected-error message carrying the exception
detail — terminates immediately without retrying, and still emits the
input re-enabled notification last. -/
theorem bad_json_single_error (env : Env) (q : String) (j : Nat)
    (d text : String)
    (hj : j < 3) (ht : ∀ i, i < j → isTransient (env.outcome i))
    (ho : env.outcome j = .response 200 (.error d) text) :
    makeApiRequest env q =
      transientPre env q j ++ postEv env q j ::
        [.idle (.errorMsg ("Unexpected error: " ++ d)),
         .idle (.setInput true)] ∧
    errorsOf (makeApiRequest env q) = ["Unexpected error: " ++ d] ∧
    (postsOf (makeApiRequest env q)).length = j + 1 := by
  have hd := loop_decomp env q j hj ht
  have hr := attemptRest_badJson d text j
  have htr : makeApiRequest env q =
      transientPre env q j ++ postEv env q j ::
        [.idle (.errorMsg ("Unexpected error: " ++ d)),
         .idle (.setInput true)] := by
    simp only [makeApiRequest, maxRetries]
    rw [hd]
    simp [attemptBody, ho, hr]
  refine ⟨htr, ?_, ?_⟩
  · rw [htr, errorsOf, List.filterMap_append]
    rw [← errorsOf, errorsOf_transientPre]
    simp [postEv]
  · rw [htr, postsOf_append, postsOf_cons_postEv, postsOf_cons_idle,
      postsOf_cons_idle, postsOf_nil]
    simp [postsOf_transientPre_length env q j]


/-! ## Claim C6: submission preconditions and the single-flight invariant -/


lemma clickStep_eq (text key : String) (s : Bool × Nat) :
    clickStep text key s =
      if pyStripStr text = "" ∨ key = "" ∨ s.1 = true then (s.1, s.2)
      else (true, s.2 + 1) := by
  by_cases hq : pyStripStr text = ""
  · simp [clickStep, onAskClicked, hq, AskEffect.isSpawn]
  · by_cases hk : key = ""
    · simp [clickStep, onAskClicked, hq, hk, AskEffect.isSpawn]
    · by_cases hreq : s.1 = true
      · simp [clickStep, onAskClicked, hq, hk, hreq, AskEffect.isSpawn]
      · simp [clickStep, onAskClicked, hq, hk, hreq, AskEffect.isSpawn]

/-- Claim C6: the precondition checks of `_on_ask_clicked` (question empty
after trimming, missing credential, an orchestration already in flight)
are evaluated synchronously: when any fails the state is unchanged and no
background thread is spawned; and in the click/finish transition system
every reachable state has at most one orchestration in flight. -/
theorem preconditions_and_single_flight :
    (∀ s : UiState,
      (pyStripStr s.entryText = "" ∨ s.apiKey = "" ∨ s.isRequesting = true) →
        (onAskClicked s).1 = s ∧
          ∀ q, AskEffect.spawnRequest q ∉ (onAskClicked s).2) ∧
    (∀ p : Bool × Nat, ReachableAsk p → p.2 ≤ 1) := by
  constructor
  · intro s hs
    rcases hs with h | h | h
    · simp [onAskClicked, h]
    · by_cases hq : pyStripStr s.entryText = ""
      · simp [onAskClicked, hq]
      · simp [onAskClicked, hq, h]
    · by_cases hq : pyStripStr s.entryText = ""
      · simp [onAskClicked, hq]
      · by_cases hk : s.apiKey = ""
        · simp [onAskClicked, hq, hk]
        · simp [onAskClicked, hq, hk, h]
  · have inv : ∀ p, ReachableAsk p → p.2 ≤ 1 ∧ (p.2 = 1 → p.1 = true) := by
      intro p hp
      induction hp with
      | init => simp
      | @step s s' hr hstep ih =>
        rcases ih with ⟨h1, h2⟩
        cases hstep with
        | click text key s =>
          rw [clickStep_eq]
          split_ifs with hcond
          · exact ⟨h1, h2⟩
          · push_neg at hcond
            have hreq : s.1 = false := by
              rcases hcond with ⟨-, -, hr1⟩
              exact Bool.not_eq_true s.1 ▸ hr1
            have hz : s.2 = 0 := by
              by_contra hnz
              have h21 : s.2 = 1 := by omega
              have := h2 h21
              rw [hreq] at this
              cases this
            refine ⟨by omega, fun _ => rfl⟩
        | finish b n h =>
          refine ⟨by omega, fun hn => ?_⟩
          exfalso
          omega
    intro p hp
    exact (inv p hp).1


/-! ## Claim C8: the transcript round trip -/


/-! ### Split/join lemmas -/

lemma splitNl_ne_nil (xs : List Char) : splitNl xs ≠ [] := by
  cases xs with
  | nil => simp [splitNl]
  | cons c rest =>
    simp only [splitNl]
    split_ifs
    · simp
    · cases h : splitNl rest <;> simp

lemma splitNl_cons_nl (ys : List Char) : splitNl ('\n' :: ys) = [] :: splitNl ys := by
  simp [splitNl]

lemma splitNl_newline_append (xs ys : List Char) :
    splitNl (xs ++ '\n' :: ys) = splitNl xs ++ splitNl ys := by
  induction xs with
  | nil => simp [splitNl]
  | cons c rest ih =>
    simp only [List.cons_append, splitNl, List.append_eq]
    by_cases hc : c = '\n'
    · subst hc; simp [ih]
    · simp only [if_neg hc]
      rw [ih]
      cases h : splitNl rest with
      | nil => exact absurd h (splitNl_ne_nil rest)
      | cons l ls => simp [h]

lemma splitNl_noNl_append (p : List Char) (hp : ∀ c ∈ p, c ≠ '\n') :
    ∀ (xs : List Char) (l : List Char) (ls : List (List Char)),
      splitNl xs = l :: ls → splitNl (p ++ xs) = (p ++ l) :: ls := by
  induction p with
  | nil => intro xs l ls h; simpa using h
  | cons c p ih =>
    intro xs l ls h
    have hc : c ≠ '\n' := hp c (by simp)
    have hrest := ih (fun d hd => hp d (by simp [hd])) xs l ls h
    simp only [List.cons_append, splitNl, List.append_eq, if_neg hc, hrest]

lemma joinNl_cons (l : List Char) (ls : List (List Char)) :
    joinNl (l :: ls) = l ++ nlCat ls := by
  induction ls generalizing l with
  | nil => simp [joinNl, nlCat]
  | cons l' ls ih =>
    simp only [joinNl, nlCat]
    rw [ih l']

lemma joinNl_splitNl (xs : List Char) : joinNl (splitNl xs) = xs := by
  induction xs with
  | nil => rfl
  | cons c rest ih =>
    by_cases hc : c = '\n'
    · subst hc
      rw [splitNl_cons_nl, joinNl_cons]
      cases h : splitNl rest with
      | nil => exact absurd h (splitNl_ne_nil rest)
      | cons l ls =>
        rw [h] at ih
        rw [joinNl_cons] at ih
        simp [nlCat, ih]
    · simp only [splitNl, if_neg hc]
      cases h : splitNl rest with
      | nil => exact absurd h (splitNl_ne_nil rest)
      | cons l ls =>
        simp only [h]
        rw [h] at ih
        rw [joinNl_cons] at ih ⊢
        simp [ih]



/-! ### Strip lemmas -/

lemma dropWhile_all_append {p : Char → Bool} (ws l : List Char)
    (h : ∀ a ∈ ws, p a = true) :
    List.dropWhile p (ws ++ l) = List.dropWhile p l := by
  induction ws with
  | nil => rfl
  | cons c ws ih =>
    simp only [List.cons_append, List.dropWhile_cons, h c (by simp), if_true]
    exact ih (fun a ha => h a (by simp [ha]))

lemma wfMsg_ne_nil {m : List Char} (h : wfMsg m = true) : m ≠ [] := by
  simp only [wfMsg, Bool.and_eq_true] at h
  intro hnil
  subst hnil
  simp at h

lemma wfMsg_head {m : List Char} (h : wfMsg m = true) :
    isPySpace (m.headD ' ') = false := by
  simp only [wfMsg, Bool.and_eq_true] at h
  simpa using h.1.1.2

lemma wfMsg_last {m : List Char} (h : wfMsg m = true) :
    isPySpace (m.getLastD ' ') = false := by
  simp only [wfMsg, Bool.and_eq_true] at h
  simpa using h.1.2

lemma wfMsg_lines {m : List Char} (h : wfMsg m = true) :
    (splitNl m).all noPre = true := by
  simp only [wfMsg, Bool.and_eq_true] at h
  exact h.2

lemma pyStrip_append_ws {m : List Char} (ws : List Char)
    (hm : wfMsg m = true) (hw : ∀ c ∈ ws, isPySpace c = true) :
    pyStrip (m ++ ws) = m := by
  obtain ⟨c, m', rfl⟩ := List.exists_cons_of_ne_nil (wfMsg_ne_nil hm)
  have hhead : isPySpace c = false := by simpa using wfMsg_head hm
  rw [pyStrip]
  rw [show (c :: m') ++ ws = c :: (m' ++ ws) from rfl]
  rw [List.dropWhile_cons]
  simp only [hhead, Bool.false_eq_true, if_false]
  rw [show c :: (m' ++ ws) = (c :: m') ++ ws from rfl]
  rw [List.reverse_append]
  rw [dropWhile_all_append ws.reverse _ (fun a ha => hw a (List.mem_reverse.mp ha))]
  rcases List.eq_nil_or_concat (c :: m') with hnil | ⟨l', a, hconc⟩
  · simp at hnil
  · rw [List.concat_eq_append] at hconc
    have hlast : isPySpace a = false := by
      have := wfMsg_last hm
      rw [hconc] at this
      simpa [List.getLastD_concat] using this
    rw [hconc, List.reverse_append]
    simp only [List.reverse_cons, List.reverse_nil, List.nil_append,
      List.cons_append, List.dropWhile_cons, hlast, Bool.false_eq_true,
      if_false]
    simp



/-! ### Prefix and parser-step lemmas -/

lemma youPre_self (l : List Char) : youPre.isPrefixOf (youPre ++ l) = true := by
  simp [youPre, List.isPrefixOf]

lemma aiPre_self (l : List Char) : aiPre.isPrefixOf (aiPre ++ l) = true := by
  simp [aiPre, List.isPrefixOf]

lemma youPre_not_ai (l : List Char) :
    youPre.isPrefixOf (aiPre ++ l) = false := by
  simp [youPre, aiPre, List.isPrefixOf]

lemma youPre_nil : youPre.isPrefixOf ([] : List Char) = false := rfl

lemma aiPre_nil : aiPre.isPrefixOf ([] : List Char) = false := rfl

lemma youPre_drop (l : List Char) : (youPre ++ l).drop 5 = l := rfl

lemma aiPre_drop (l : List Char) : (aiPre ++ l).drop 10 = l := rfl

lemma parseLoop_midlines :
    ∀ (ls : List (List Char)) (rest : List (List Char)) (cur : List Char)
      (ty : Option EType) (acc : List Entry), cur ≠ [] →
      ls.all noPre = true →
      parseLoop (ls ++ rest) cur ty acc =
        parseLoop rest (cur ++ nlCat ls) ty acc := by
  intro ls
  induction ls with
  | nil => intro rest cur ty acc _ _; simp [nlCat]
  | cons l ls ih =>
    intro rest cur ty acc hcur hall
    simp only [List.all_cons, Bool.and_eq_true] at hall
    have hyou : youPre.isPrefixOf l = false := by
      have := hall.1
      simp only [noPre, Bool.and_eq_true, Bool.not_eq_true'] at this
      exact this.1
    have hai : aiPre.isPrefixOf l = false := by
      have := hall.1
      simp only [noPre, Bool.and_eq_true, Bool.not_eq_true'] at this
      exact this.2
    simp only [List.cons_append, parseLoop]
    rw [if_neg (by simp [hyou]), if_neg (by simp [hai]), if_pos hcur]
    simp only [List.append_eq]
    rw [ih rest (cur ++ '\n' :: l) ty acc (by simp) hall.2]
    simp [nlCat]

lemma wfMsg_split {m : List Char} (hm : wfMsg m = true) :
    ∃ l0 ls, splitNl m = l0 :: ls ∧ l0 ≠ [] ∧ ls.all noPre = true := by
  cases h : splitNl m with
  | nil => exact absurd h (splitNl_ne_nil m)
  | cons l0 ls =>
    refine ⟨l0, ls, rfl, ?_, ?_⟩
    · intro hl0
      subst hl0
      have hj := joinNl_splitNl m
      rw [h] at hj
      cases ls with
      | nil => exact wfMsg_ne_nil hm (by simpa [joinNl] using hj.symm)
      | cons l ls' =>
        rw [joinNl_cons] at hj
        simp only [nlCat, List.nil_append] at hj
        have hhead := wfMsg_head hm
        rw [← hj] at hhead
        simp only [List.headD_cons] at hhead
        exact absurd hhead (by decide)
    · have := wfMsg_lines hm
      rw [h] at this
      simp only [List.all_cons, Bool.and_eq_true] at this
      exact this.2



lemma pyStrip_nl (m : List Char) (hm : wfMsg m = true) :
    pyStrip (m ++ ['\n']) = m :=
  pyStrip_append_ws ['\n'] hm (by intro c hc; simp at hc; subst hc; decide)

lemma pyStrip_nl2 (m : List Char) (hm : wfMsg m = true) :
    pyStrip (m ++ ['\n', '\n']) = m :=
  pyStrip_append_ws ['\n', '\n'] hm
    (by intro c hc; simp at hc; subst hc; decide)

lemma parseLoop_renderTranscript :
    ∀ (es : List Entry) (cur : List Char) (ty : Option EType)
      (acc : List Entry),
      (∀ e ∈ es, wfMsg e.2 = true) → pendingInv cur ty →
      parseLoop (splitNl (renderTranscript es)) cur ty acc =
        acc ++ flushPending cur ty ++ es := by
  intro es
  induction es with
  | nil =>
    intro cur ty acc _ hinv
    simp only [renderTranscript, splitNl]
    rcases hinv with ⟨rfl, rfl⟩ | ⟨m, t, hwf, rfl, rfl⟩
    · simp [parseLoop, youPre_nil, aiPre_nil, flushPending]
    · simp only [parseLoop, youPre_nil, aiPre_nil, Bool.false_eq_true,
        if_false]
      rw [if_pos (by simp)]
      simp only [parseLoop, flushPending]
      rw [if_neg (by simp), if_neg (by simp)]
      rw [show (m ++ ['\n']) ++ '\n' :: [] = m ++ ['\n', '\n'] by simp]
      rw [pyStrip_nl2 m hwf, pyStrip_nl m hwf]
      simp
  | cons e rest ih =>
    intro cur ty acc hall hinv
    obtain ⟨t0, m⟩ := e
    have hwfm : wfMsg m = true := hall (t0, m) (by simp)
    obtain ⟨l0, ls, hsplit, hl0, hlsall⟩ := wfMsg_split hwfm
    have hrest : ∀ e ∈ rest, wfMsg e.2 = true :=
      fun e he => hall e (by simp [he])
    have hpre : ∀ pre : List Char, pre = youPre ∨ pre = aiPre →
        splitNl ((pre ++ m ++ ['\n', '\n']) ++
            renderTranscript rest) =
          (pre ++ l0) :: (ls ++ [] :: splitNl (renderTranscript rest)) := by
      intro pre hpc
      rw [show (pre ++ m ++ ['\n', '\n']) ++ renderTranscript rest =
        (pre ++ m) ++ '\n' :: ('\n' :: renderTranscript rest) by simp]
      rw [splitNl_newline_append, splitNl_cons_nl]
      rw [splitNl_noNl_append pre ?_ m l0 ls hsplit]
      · simp
      · rcases hpc with rfl | rfl <;>
          (intro c hc; revert hc; simp [youPre, aiPre]) <;>
          (rintro (rfl | rfl | rfl | rfl | rfl | rfl | rfl | rfl | rfl | rfl) <;> decide)
    have hmid : ∀ ty' acc',
        parseLoop (ls ++ [] :: splitNl (renderTranscript rest)) l0
          (some ty') acc' = acc' ++ [(ty', m)] ++ rest := by
      intro ty' acc'
      rw [parseLoop_midlines ls _ l0 (some ty') acc' hl0 hlsall]
      have hjoin : l0 ++ nlCat ls = m := by
        rw [← joinNl_cons, ← hsplit, joinNl_splitNl]
      rw [hjoin]
      simp only [parseLoop, youPre_nil, aiPre_nil, Bool.false_eq_true,
        if_false]
      rw [if_pos (by simpa using wfMsg_ne_nil hwfm)]
      rw [show m ++ '\n' :: [] = m ++ ['\n'] from rfl]
      rw [ih (m ++ ['\n']) (some ty') acc' hrest
        (Or.inr ⟨m, ty', hwfm, rfl, rfl⟩)]
      simp [flushPending, pyStrip_nl m hwfm]
    cases t0 with
    | user =>
      simp only [renderTranscript, renderEntry]
      rw [hpre youPre (Or.inl rfl)]
      simp only [parseLoop]
      rw [if_pos (youPre_self l0), youPre_drop, hmid .user
        (acc ++ flushPending cur ty)]
      simp
    | ai =>
      simp only [renderTranscript, renderEntry]
      rw [hpre aiPre (Or.inr rfl)]
      simp only [parseLoop]
      rw [if_neg (by simp [youPre_not_ai]), if_pos (aiPre_self l0),
        aiPre_drop, hmid .ai (acc ++ flushPending cur ty)]
      simp



/-- Claim C8 (amended): serializing a conversation to the persisted
session format via the buffer parser of `write_file` (after the transcript
was rendered from the entries) and reloading it via `read_file` yields an
identical ordered sequence of entries, provided every message is
non-empty, has no leading or trailing Python whitespace, and no line of it
begins with `"You: "` or `"Sugar-AI: "`. -/
theorem transcript_roundtrip (es : List Entry)
    (h : ∀ e ∈ es, wfMsg e.2 = true) :
    parseConversation (renderTranscript es) = es := by
  have := parseLoop_renderTranscript es [] none [] h (Or.inl ⟨rfl, rfl⟩)
  simpa [parseConversation, flushPending] using this

/-- Claim C8 counterexample: an alternating two-entry conversation whose
first message is the empty string does not survive the round trip — the
parser of `write_file` drops the empty-message entry, so the reloaded
sequence differs from the original. -/
theorem transcript_roundtrip_counterexample :
    parseConversation (renderTranscript exEntries) ≠ exEntries := by decide

theorem transcript_roundtrip_witness :
    (∀ e ∈ ([(EType.user, ['h', 'i']), (EType.ai, ['y', 'o'])] : List Entry),
      wfMsg e.2 = true) ∧
    parseConversation (renderTranscript
        [(EType.user, ['h', 'i']), (EType.ai, ['y', 'o'])]) =
      [(EType.user, ['h', 'i']), (EType.ai, ['y', 'o'])] :=
  ⟨by decide, transcript_roundtrip _ (by decide)⟩


/-! ## Witnesses: concrete instantiations of the claim theorems -/


theorem retry_budget_witness :
    makeApiRequest envTimeouts "q" =
      [Event.httpPost "https://ai.sugarlabs.org/ask" [("question", "q")]
         [("X-API-Key", "k")] 300,
       .idle (.systemMsg "Request timed out on attempt 1. Will retry..."),
       .idle (.systemMsg "Attempt 2/3 - retrying in 60 seconds..."),
       .sleep 60,
       .idle (.systemMsg "Retrying request to Sugar-AI..."),
       Event.httpPost "https://ai.sugarlabs.org/ask" [("question", "q")]
         [("X-API-Key", "k")] 300,
       .idle (.systemMsg "Request timed out on attempt 2. Will retry..."),
       .idle (.systemMsg "Attempt 3/3 - retrying in 120 seconds..."),
       .sleep 120,
       .idle (.systemMsg "Retrying request to Sugar-AI..."),
       Event.httpPost "https://ai.sugarlabs.org/ask" [("question", "q")]
         [("X-API-Key", "k")] 300,
       .idle (.errorMsg "Request timed out after 5 minutes on 3 attempts. The Sugar-AI service may be experiencing high load. Please try again later."),
       .idle (.setInput true)] :=
  (retry_budget_and_backoff envTimeouts "q").2.2.2.2 (fun _ _ => trivial)

theorem terminal_single_attempt_witness :
    makeApiRequest envConn "q" =
      [Event.httpPost "https://ai.sugarlabs.org/ask" [("question", "q")]
         [("X-API-Key", "k")] 300,
       .idle (.errorMsg "Connection error. Please check your internet connection."),
       .idle (.setInput true)] :=
  terminal_single_attempt envConn "q" trivial

theorem success_branch_witness :
    makeApiRequest envQuota "What is a loop?" =
      [Event.httpPost "https://ai.sugarlabs.org/ask"
         [("question", "What%20is%20a%20loop%3F")] [("X-API-Key", "k")] 300,
       .idle (.systemMsg "Quota: 9/10"),
       .idle (.aiMsg (.str "A loop repeats code.")),
       .idle (.setInput true)] ∧
    answerCount (makeApiRequest envQuota "What is a loop?") = 1 ∧
    errorsOf (makeApiRequest envQuota "What is a loop?") = [] ∧
    (postsOf (makeApiRequest envQuota "What is a loop?")).length = 1 :=
  success_branch envQuota "What is a loop?" 0
    [("answer", .str "A loop repeats code."),
     ("quota", .obj [("remaining", .num 9), ("total", .num 10)])] ""
    (by omega) (fun i hi => absurd hi (by omega)) rfl
    (fun _ => ⟨[("remaining", .num 9), ("total", .num 10)], rfl⟩)

theorem bad_json_witness :
    makeApiRequest envBadJson "q" =
      [Event.httpPost "https://ai.sugarlabs.org/ask" [("question", "q")]
         [("X-API-Key", "k")] 300,
       .idle (.errorMsg "Unexpected error: Expecting value"),
       .idle (.setInput true)] ∧
    errorsOf (makeApiRequest envBadJson "q") =
      ["Unexpected error: Expecting value"] ∧
    (postsOf (makeApiRequest envBadJson "q")).length = 1 :=
  bad_json_single_error envBadJson "q" 0 "Expecting value" "not json"
    (by omega) (fun i hi => absurd hi (by omega)) rfl

theorem wire_protocol_witness :
    ∃ i, "https://ai.sugarlabs.org/ask" =
        apiBaseUrl ++ (if envConn.rag i then "/ask" else "/ask-llm") ∧
      [("question", "q")] = [("question", pyQuote "q")] ∧
      [("X-API-Key", "k")] = [("X-API-Key", envConn.apiKey i)] ∧
      (300 : Nat) = 300 :=
  wire_protocol envConn "q" "https://ai.sugarlabs.org/ask"
    [("question", "q")] [("X-API-Key", "k")] 300 (List.mem_cons_self _ _)

theorem marshaled_or_blocking_witness :
    (∃ n, Event.httpPost "https://ai.sugarlabs.org/ask" [("question", "q")]
        [("X-API-Key", "k")] 300 = Event.idle n) ∨
      (∃ k, Event.httpPost "https://ai.sugarlabs.org/ask" [("question", "q")]
        [("X-API-Key", "k")] 300 = Event.sleep k) ∨
      (∃ u ps hs t, Event.httpPost "https://ai.sugarlabs.org/ask"
        [("question", "q")] [("X-API-Key", "k")] 300 =
          Event.httpPost u ps hs t) :=
  marshaled_or_blocking envConn "q"
    (Event.httpPost "https://ai.sugarlabs.org/ask" [("question", "q")]
      [("X-API-Key", "k")] 300) (List.mem_cons_self _ _)

theorem preconditions_witness :
    ((onAskClicked ⟨"", "k", false⟩).1 = ⟨"", "k", false⟩ ∧
      ∀ q, AskEffect.spawnRequest q ∉ (onAskClicked ⟨"", "k", false⟩).2) ∧
    ((false, 0) : Bool × Nat).2 ≤ 1 :=
  ⟨preconditions_and_single_flight.1 ⟨"", "k", false⟩ (Or.inl rfl),
   preconditions_and_single_flight.2 (false, 0) ReachableAsk.init⟩


end SugarAI
